import Mathlib

/-!
Verification of the TTS_CEI frontend (src/frontend/src/App.js) against its
natural-language specification. The client logic is embedded shallowly:
the batch-input parser becomes a character scanner equivalent to the
JavaScript regex loop, and the two async handlers become pure functions
from UI state and request outcome to a list of observable effects.
-/

set_option autoImplicit false

namespace TTS

/-- The double-quote character. -/
def dquote : Char := Char.ofNat 34

/-- The single-quote character (written via its code point to keep the
file free of quote literals). -/
def squote : Char := Char.ofNat 39

/-- JavaScript `String.prototype.trim`: drop whitespace from both ends.
Defined structurally on the character list so that concrete instances
evaluate inside the kernel. -/
def jsTrim (cs : List Char) : List Char :=
  ((cs.dropWhile Char.isWhitespace).reverse.dropWhile Char.isWhitespace).reverse

/-- One match of the JavaScript regex `/"([^\x22]*)"|(single-quoted)/g`:
either a double-quoted segment (capture group 1) or a single-quoted
segment (capture group 2), holding the content between the quotes. -/
inductive QMatch where
  | dq (content : String)
  | sq (content : String)
deriving DecidableEq, Repr

/-- Scan characters up to (and consuming) the first occurrence of `q`;
returns the content before `q` and the remainder after it, or `none`
when `q` does not occur. This is how the greedy `[^q]*` followed by a
closing quote behaves: the capture is exactly the run of characters
before the next `q`. -/
def takeUntil (q : Char) : List Char → Option (List Char × List Char)
  | [] => none
  | c :: cs =>
    if c = q then some ([], cs)
    else
      match takeUntil q cs with
      | some (content, rest) => some (c :: content, rest)
      | none => none

/-- The repeated `regex.exec` loop: find the leftmost match (trying the
double-quote alternative first, which is forced since the alternatives
start with distinct characters), emit it, and continue right after it.
`fuel` bounds the loop; every iteration consumes at least one input
character, so the input length is always enough fuel. -/
def findMatchesAux : Nat → List Char → List QMatch
  | 0, _ => []
  | _ + 1, [] => []
  | fuel + 1, c :: cs =>
    if c = dquote then
      match takeUntil dquote cs with
      | some (content, rest) => QMatch.dq (String.mk content) :: findMatchesAux fuel rest
      | none => findMatchesAux fuel cs
    else if c = squote then
      match takeUntil squote cs with
      | some (content, rest) => QMatch.sq (String.mk content) :: findMatchesAux fuel rest
      | none => findMatchesAux fuel cs
    else
      findMatchesAux fuel cs

/-- All quoted segments of the input, left to right, as found by the
JavaScript `while ((match = regex.exec(input)) !== null)` loop. -/
def findMatches (cs : List Char) : List QMatch :=
  findMatchesAux cs.length cs

/-- JavaScript truthiness-based choice `a || b` on values that are
either a string or `undefined` (`none` embeds `undefined`). -/
def jsOr (a b : Option String) : Option String :=
  match a with
  | some s => if s = "" then b else some s
  | none => b

/-- The expression `match[1] || match[2]` of the source: group 1 is set
exactly for a double-quoted match, group 2 for a single-quoted one, and
an empty string is falsy. -/
def matchText : QMatch → Option String
  | QMatch.dq s => jsOr (some s) none
  | QMatch.sq s => jsOr none (some s)

/-- Batch-level UI state read by `parseBatchInput` (the component state
variables it closes over). -/
structure BatchSettings where
  batchVoice : String
  batchSpeed : Rat
  batchModel : String
  useBatchCustomVoice : Bool
  batchCustomVoicePrompt : String
deriving DecidableEq, Repr

/-- One element of the array built by `parseBatchInput`. The `text`
field is `Option String` because `match[1] || match[2]` can evaluate to
`undefined` (embedded as `none`). -/
structure BatchItem where
  text : Option String
  voice : String
  filename : String
  speed : Rat
  model : String
  custom_voice_prompt : String
deriving DecidableEq, Repr

/-- The object pushed for the k-th match (`currentFileName = k`). -/
def mkItem (st : BatchSettings) (k : Nat) (m : QMatch) : BatchItem :=
  { text := matchText m
    voice := st.batchVoice
    filename := "speech_" ++ toString k
    speed := st.batchSpeed
    model := st.batchModel
    custom_voice_prompt := if st.useBatchCustomVoice then st.batchCustomVoicePrompt else "" }

/-- The `while` loop body: one item per match, with the counter
`currentFileName` starting at `k` and incremented after each push. -/
def buildItems (st : BatchSettings) : Nat → List QMatch → List BatchItem
  | _, [] => []
  | k, m :: ms => mkItem st k m :: buildItems st (k + 1) ms

/-- `parseBatchInput` from App.js: return `[]` for blank input, else one
item per quoted segment, numbered from 1. -/
def parseBatchInput (st : BatchSettings) (input : String) : List BatchItem :=
  if jsTrim input.data = [] then []
  else buildItems st 1 (findMatches input.data)

/-- Single-tab UI state read by `handleSingleGenerate`. `hasAudioElement`
records whether the `<audio>` element is mounted (`audioRef.current` is
non-null); in the rendered page that element is present exactly when
`singleAudioUrl` is non-null. -/
structure SingleState where
  text : String
  voice : String
  speed : Rat
  model : String
  customVoicePrompt : String
  useCustomVoice : Bool
  singleAudioUrl : Option String
  hasAudioElement : Bool
deriving DecidableEq, Repr

/-- The JSON body posted to `/api/tts/single`. A `none` field embeds an
absent JavaScript object property. -/
structure SinglePayload where
  text : String
  speed : Rat
  model : String
  voice : Option String
  custom_voice_prompt : Option String
deriving DecidableEq, Repr

/-- Payload construction in `handleSingleGenerate`: start from
`{ text, speed, model }` and add `custom_voice_prompt` when
`useCustomVoice && customVoicePrompt.trim()` is truthy, else add
`voice`. -/
def buildSinglePayload (s : SingleState) : SinglePayload :=
  if s.useCustomVoice = true ∧ jsTrim s.customVoicePrompt.data ≠ [] then
    { text := s.text, speed := s.speed, model := s.model
      voice := none, custom_voice_prompt := some s.customVoicePrompt }
  else
    { text := s.text, speed := s.speed, model := s.model
      voice := some s.voice, custom_voice_prompt := none }

/-- Whether the awaited `axios.post` resolves or rejects. -/
inductive ReqOutcome where
  | success
  | failure
deriving DecidableEq, Repr

/-- Observable steps of `handleSingleGenerate`, in program order. -/
inductive SingleEffect where
  | alertValidation
  | setGenerating (b : Bool)
  | postSingle (p : SinglePayload)
  | revokeObjectUrl (u : String)
  | setAudioUrl (u : String)
  | loadAudio
  | playAudio
  | alertError
deriving DecidableEq, Repr

/-- The effect trace of one run of `handleSingleGenerate`, given the UI
state, whether the post succeeds, and the object URL created for the
response blob. The `finally` block contributes the trailing
`setGenerating false` on both branches. -/
def handleSingleGenerateTrace (s : SingleState) (o : ReqOutcome) (newUrl : String) :
    List SingleEffect :=
  if jsTrim s.text.data = [] then [SingleEffect.alertValidation]
  else
    SingleEffect.setGenerating true ::
    SingleEffect.postSingle (buildSinglePayload s) ::
    ((match o with
      | ReqOutcome.success =>
        (match s.singleAudioUrl with
         | some u => [SingleEffect.revokeObjectUrl u]
         | none => []) ++
        SingleEffect.setAudioUrl newUrl ::
        (if s.hasAudioElement then [SingleEffect.loadAudio, SingleEffect.playAudio] else [])
      | ReqOutcome.failure => [SingleEffect.alertError]) ++
     [SingleEffect.setGenerating false])

/-- Observable steps of `handleBatchGenerate`, in program order. -/
inductive BatchEffect where
  | alertValidation
  | setGeneratingBatch (b : Bool)
  | postBatch (texts : List BatchItem) (use_custom_prompt : Bool)
  | saveZip
  | alertError
deriving DecidableEq, Repr

/-- The effect trace of one run of `handleBatchGenerate`: parse the
input, alert and stop when nothing was parsed, else post the parsed
items and either save the zip or alert, resetting the loading flag in
`finally`. -/
def handleBatchGenerateTrace (st : BatchSettings) (input : String) (o : ReqOutcome) :
    List BatchEffect :=
  let parsedTexts := parseBatchInput st input
  if parsedTexts.length = 0 then [BatchEffect.alertValidation]
  else
    BatchEffect.setGeneratingBatch true ::
    BatchEffect.postBatch parsedTexts st.useBatchCustomVoice ::
    ((match o with
      | ReqOutcome.success => [BatchEffect.saveZip]
      | ReqOutcome.failure => [BatchEffect.alertError]) ++
     [BatchEffect.setGeneratingBatch false])

/-- Result of the gateway operation `synthesizeSingle`: either the
request is rejected by validation (no outbound provider call is made),
or the provider is called with the resolved payload. -/
inductive SynthOutcome where
  | validationError
  | providerCall (p : SinglePayload)
deriving DecidableEq, Repr

/-- Modelled from the spec: the synthesis gateway operation
`synthesizeSingle` lives in the backend (`backend/server.py`, mounted by
docker-compose.yml), whose source is not part of this snapshot; only its
frontend caller is. Per the spec it validates that the text is non-empty
after trimming, that `speed` lies within `[0.25, 4.0]` (boundaries
inclusive), and that model and named voice are members of the supported
enumerations, and validation failures are rejected before any outbound
provider call. -/
def synthesizeSingle (supportedVoices supportedModels : List String)
    (p : SinglePayload) : SynthOutcome :=
  if jsTrim p.text.data = [] then SynthOutcome.validationError
  else if p.speed < 1/4 ∨ 4 < p.speed then SynthOutcome.validationError
  else if p.model ∉ supportedModels then SynthOutcome.validationError
  else if (match p.voice with
           | some v => decide (v ∉ supportedVoices)
           | none => false) = true then SynthOutcome.validationError
  else SynthOutcome.providerCall p

/-- Sample batch settings (the defaults of the component state). -/
def sampleSettings : BatchSettings :=
  { batchVoice := "alloy", batchSpeed := 1, batchModel := "tts-1"
    useBatchCustomVoice := false, batchCustomVoicePrompt := "" }

/-- Sample single-tab state with whitespace-only text. -/
def sampleStateBlank : SingleState :=
  { text := "   ", voice := "alloy", speed := 1, model := "tts-1"
    customVoicePrompt := "", useCustomVoice := false
    singleAudioUrl := none, hasAudioElement := false }

/-- Sample single-tab state ready to generate for the first time. -/
def sampleStateReady : SingleState :=
  { text := "hi", voice := "alloy", speed := 1, model := "tts-1"
    customVoicePrompt := "", useCustomVoice := false
    singleAudioUrl := none, hasAudioElement := false }

/-- Sample single-tab state holding a previously generated audio URL
(hence with the audio element mounted). -/
def sampleStateWithAudio : SingleState :=
  { text := "hi", voice := "alloy", speed := 1, model := "tts-1"
    customVoicePrompt := "", useCustomVoice := false
    singleAudioUrl := some "blob:old", hasAudioElement := true }

/-- Sample payload with speed 0.24, just below the lower bound. -/
def paySlow : SinglePayload :=
  { text := "hi", speed := 6/25, model := "tts-1"
    voice := some "alloy", custom_voice_prompt := none }

/-- Sample payload with speed 4.01, just above the upper bound. -/
def payFast : SinglePayload :=
  { text := "hi", speed := 401/100, model := "tts-1"
    voice := some "alloy", custom_voice_prompt := none }

/-- Sample payload with speed exactly 0.25. -/
def payMin : SinglePayload :=
  { text := "hi", speed := 1/4, model := "tts-1"
    voice := some "alloy", custom_voice_prompt := none }

/-- Sample payload with speed exactly 4.0. -/
def payMax : SinglePayload :=
  { text := "hi", speed := 4, model := "tts-1"
    voice := some "alloy", custom_voice_prompt := none }

end TTS

namespace TTS

/-- A successful `takeUntil` consumes at least the closing quote, so the
remainder is strictly shorter than the scanned list. -/
theorem takeUntil_length {q : Char} :
    ∀ {cs content rest : List Char},
      takeUntil q cs = some (content, rest) → rest.length < cs.length := by
  intro cs
  induction cs with
  | nil => intro content rest h; simp [takeUntil] at h
  | cons c cs ih =>
    intro content rest h
    by_cases hc : c = q
    · simp [takeUntil, hc] at h
      simp [← h.2]
    · simp only [takeUntil, if_neg hc] at h
      cases htu : takeUntil q cs with
      | none => rw [htu] at h; simp at h
      | some pr =>
        rw [htu] at h
        cases pr with
        | mk content₂ rest₂ =>
          simp at h
          have := ih htu
          have : rest = rest₂ := by simp [← h.2]
          simp [this]
          exact Nat.lt_succ_of_lt (ih htu)

/-- Scanning for `q` through a prefix free of `q` finds exactly that
prefix, stopping at the first `q`. -/
theorem takeUntil_append {q : Char} :
    ∀ (content rest : List Char), (∀ c ∈ content, c ≠ q) →
      takeUntil q (content ++ q :: rest) = some (content, rest) := by
  intro content
  induction content with
  | nil => intro rest _; simp [takeUntil]
  | cons c cs ih =>
    intro rest h
    have hc : c ≠ q := h c (List.mem_cons_self c cs)
    have hcs : ∀ x ∈ cs, x ≠ q := fun x hx => h x (List.mem_cons_of_mem c hx)
    simp only [List.cons_append, takeUntil, if_neg hc]
    rw [show cs.append (q :: rest) = cs ++ q :: rest from rfl, ih rest hcs]

/-- The fuel argument of `findMatchesAux` is irrelevant once it covers
the input length. -/
theorem findMatchesAux_congr :
    ∀ (fuel₁ fuel₂ : Nat) (cs : List Char), cs.length ≤ fuel₁ → cs.length ≤ fuel₂ →
      findMatchesAux fuel₁ cs = findMatchesAux fuel₂ cs := by
  intro fuel₁
  induction fuel₁ with
  | zero =>
    intro fuel₂ cs h₁ _
    have : cs = [] := List.eq_nil_of_length_eq_zero (Nat.le_zero.mp h₁)
    subst this
    cases fuel₂ <;> rfl
  | succ f₁ ih =>
    intro fuel₂ cs h₁ h₂
    cases cs with
    | nil => cases fuel₂ <;> rfl
    | cons c cs =>
      cases fuel₂ with
      | zero => exact absurd h₂ (by simp)
      | succ f₂ =>
        have hcs₁ : cs.length ≤ f₁ := Nat.le_of_succ_le_succ h₁
        have hcs₂ : cs.length ≤ f₂ := Nat.le_of_succ_le_succ h₂
        by_cases hdq : c = dquote
        · cases htu : takeUntil dquote cs with
          | none => simp only [findMatchesAux, if_pos hdq, htu, ih f₂ cs hcs₁ hcs₂]
          | some pr =>
            cases pr with
            | mk content rest =>
              have hr : rest.length < cs.length := takeUntil_length htu
              simp only [findMatchesAux, if_pos hdq, htu]
              rw [ih f₂ rest (Nat.le_of_lt (Nat.lt_of_lt_of_le hr hcs₁))
                    (Nat.le_of_lt (Nat.lt_of_lt_of_le hr hcs₂))]
        · by_cases hsq : c = squote
          · cases htu : takeUntil squote cs with
            | none =>
              simp only [findMatchesAux, if_neg hdq, if_pos hsq, htu, ih f₂ cs hcs₁ hcs₂]
            | some pr =>
              cases pr with
              | mk content rest =>
                have hr : rest.length < cs.length := takeUntil_length htu
                simp only [findMatchesAux, if_neg hdq, if_pos hsq, htu]
                rw [ih f₂ rest (Nat.le_of_lt (Nat.lt_of_lt_of_le hr hcs₁))
                      (Nat.le_of_lt (Nat.lt_of_lt_of_le hr hcs₂))]
          · simp only [findMatchesAux, if_neg hdq, if_neg hsq, ih f₂ cs hcs₁ hcs₂]

/-- Unfolding: a double-quoted segment at the head of the input becomes
one match, and scanning resumes right after its closing quote. -/
theorem findMatches_cons_dq {cs content rest : List Char}
    (h : takeUntil dquote cs = some (content, rest)) :
    findMatches (dquote :: cs) = QMatch.dq (String.mk content) :: findMatches rest := by
  have hr : rest.length < cs.length := takeUntil_length h
  simp only [findMatches, List.length_cons, findMatchesAux, if_pos rfl, h]
  rw [findMatchesAux_congr cs.length rest.length rest (Nat.le_of_lt hr) (Nat.le_refl _)]
  simp

/-- Unfolding: an unclosed double quote produces no match; scanning
continues with the next character. -/
theorem findMatches_cons_dq_none {cs : List Char}
    (h : takeUntil dquote cs = none) :
    findMatches (dquote :: cs) = findMatches cs := by
  simp only [findMatches, List.length_cons, findMatchesAux, if_pos rfl, h]
  simp

/-- Unfolding: a single-quoted segment at the head of the input becomes
one match, and scanning resumes right after its closing quote. -/
theorem findMatches_cons_sq {cs content rest : List Char}
    (h : takeUntil squote cs = some (content, rest)) :
    findMatches (squote :: cs) = QMatch.sq (String.mk content) :: findMatches rest := by
  have hr : rest.length < cs.length := takeUntil_length h
  have hne : squote ≠ dquote := by decide
  simp only [findMatches, List.length_cons, findMatchesAux, if_neg hne, if_pos rfl, h]
  rw [findMatchesAux_congr cs.length rest.length rest (Nat.le_of_lt hr) (Nat.le_refl _)]
  simp

/-- Unfolding: an unclosed single quote produces no match; scanning
continues with the next character. -/
theorem findMatches_cons_sq_none {cs : List Char}
    (h : takeUntil squote cs = none) :
    findMatches (squote :: cs) = findMatches cs := by
  have hne : squote ≠ dquote := by decide
  simp only [findMatches, List.length_cons, findMatchesAux, if_neg hne, if_pos rfl, h]
  simp

/-- Unfolding: a character that is neither quote is skipped without
producing a match. -/
theorem findMatches_cons_skip {c : Char} {cs : List Char}
    (hdq : c ≠ dquote) (hsq : c ≠ squote) :
    findMatches (c :: cs) = findMatches cs := by
  simp only [findMatches, List.length_cons, findMatchesAux, if_neg hdq, if_neg hsq]

/-- An input containing no quote character yields no matches. -/
theorem findMatches_no_quotes :
    ∀ {cs : List Char}, (∀ c ∈ cs, c ≠ dquote ∧ c ≠ squote) → findMatches cs = [] := by
  intro cs
  induction cs with
  | nil => intro _; rfl
  | cons c cs ih =>
    intro h
    have hc := h c (List.mem_cons_self c cs)
    rw [findMatches_cons_skip hc.1 hc.2]
    exact ih (fun x hx => h x (List.mem_cons_of_mem c hx))

/-- One item is built per match. -/
theorem buildItems_length (st : BatchSettings) :
    ∀ (k : Nat) (ms : List QMatch), (buildItems st k ms).length = ms.length := by
  intro k ms
  induction ms generalizing k with
  | nil => rfl
  | cons m ms ih => simp [buildItems, ih]

/-- The texts of the built items are the matched segments, in order. -/
theorem buildItems_map_text (st : BatchSettings) :
    ∀ (k : Nat) (ms : List QMatch),
      (buildItems st k ms).map (fun it => it.text) = ms.map matchText := by
  intro k ms
  induction ms generalizing k with
  | nil => rfl
  | cons m ms ih => simp [buildItems, mkItem, ih]

/-- Filenames count up by one from the starting counter. -/
theorem buildItems_map_filename (st : BatchSettings) :
    ∀ (k : Nat) (ms : List QMatch),
      (buildItems st k ms).map (fun it => it.filename) =
        (List.range ms.length).map (fun i => "speech_" ++ toString (k + i)) := by
  intro k ms
  induction ms generalizing k with
  | nil => rfl
  | cons m ms ih =>
    simp only [buildItems, List.map_cons, mkItem, List.length_cons,
      List.range_succ_eq_map, List.map_map]
    refine congrArg₂ _ (by simp) ?_
    rw [ih (k + 1)]
    apply List.map_congr_left
    intro i _
    simp only [Function.comp]
    have : k + (i + 1) = k + 1 + i := by omega
    rw [this]

/-- Every built item is an `mkItem` of the same settings. -/
theorem buildItems_mem (st : BatchSettings) :
    ∀ {k : Nat} {ms : List QMatch} {it : BatchItem}, it ∈ buildItems st k ms →
      ∃ j m, it = mkItem st j m := by
  intro k ms
  induction ms generalizing k with
  | nil => intro it h; simp [buildItems] at h
  | cons m ms ih =>
    intro it h
    rcases List.mem_cons.mp h with h | h
    · exact ⟨k, m, h⟩
    · exact ih h

/-- The last element of a trace of the shape built by the handlers. -/
theorem getLast_cons_cons_concat {α : Type} (a b y : α) (X : List α) :
    (a :: b :: (X ++ [y])).getLast? = some y := by
  rw [show a :: b :: (X ++ [y]) = (a :: b :: X) ++ [y] from rfl, List.getLast?_concat]

/-- C1: for every batch input whose trimmed form is non-blank (the
blank case returns no items before scanning), `parseBatchInput`
extracts one item per quoted segment, double- or single-quoted, in
left-to-right order, and names the k-th item `speech_k` sequentially
from 1 with no gaps; in particular the input consisting of the three
double-quoted segments a, b, c parses to exactly three items named
speech_1, speech_2, speech_3 in that order. -/
theorem claim_C1_batch_items_sequential (st : BatchSettings) (input : String)
    (h : jsTrim input.data ≠ []) :
    (parseBatchInput st input).length = (findMatches input.data).length ∧
    (parseBatchInput st input).map (fun it => it.text) =
      (findMatches input.data).map matchText ∧
    (parseBatchInput st input).map (fun it => it.filename) =
      (List.range (findMatches input.data).length).map
        (fun i => "speech_" ++ toString (i + 1)) ∧
    (parseBatchInput st "\"a\", \"b\", \"c\"").map (fun it => (it.text, it.filename)) =
      [(some "a", "speech_1"), (some "b", "speech_2"), (some "c", "speech_3")] := by
  refine ⟨?_, ?_, ?_, rfl⟩
  · simp only [parseBatchInput, if_neg h, buildItems_length]
  · simp only [parseBatchInput, if_neg h, buildItems_map_text]
  · simp only [parseBatchInput, if_neg h, buildItems_map_filename]
    exact List.map_congr_left (fun i _ => by rw [Nat.add_comm])

/-- Witness for C1 at the concrete three-segment input. -/
theorem claim_C1_witness :
    jsTrim ("\"a\", \"b\", \"c\"" : String).data ≠ [] ∧
    (parseBatchInput sampleSettings "\"a\", \"b\", \"c\"").map
        (fun it => (it.text, it.filename)) =
      [(some "a", "speech_1"), (some "b", "speech_2"), (some "c", "speech_3")] :=
  ⟨by decide,
   (claim_C1_batch_items_sequential sampleSettings "\"a\", \"b\", \"c\"" (by decide)).2.2.2⟩

/-- C2: segments outside quotes are silently dropped: an input with no
quote character at all yields no items and no error (the parser is
total), and the concrete input with the unquoted prefix foo and the
double-quoted segment bar yields exactly one item, whose text is
bar. -/
theorem claim_C2_unquoted_dropped (st : BatchSettings) (input : String)
    (hq : ∀ c ∈ input.data, c ≠ dquote ∧ c ≠ squote) :
    parseBatchInput st input = [] ∧
    (parseBatchInput st "foo, \"bar\"").map (fun it => it.text) = [some "bar"] ∧
    (parseBatchInput st "foo, \"bar\"").length = 1 := by
  refine ⟨?_, rfl, rfl⟩
  by_cases h : jsTrim input.data = []
  · simp [parseBatchInput, h]
  · simp [parseBatchInput, h, findMatches_no_quotes hq, buildItems]

/-- Witness for C2 at a concrete quote-free input. -/
theorem claim_C2_witness :
    parseBatchInput sampleSettings "foo" = [] :=
  (claim_C2_unquoted_dropped sampleSettings "foo" (by decide)).1

/-- C6: every item extracted by `parseBatchInput` carries the batch
voice, speed and model unchanged, and its custom_voice_prompt is the
batch prompt when the batch custom-voice flag is set and the empty
string otherwise. -/
theorem claim_C6_uniform_settings (st : BatchSettings) (input : String) (it : BatchItem)
    (h : it ∈ parseBatchInput st input) :
    it.voice = st.batchVoice ∧ it.speed = st.batchSpeed ∧ it.model = st.batchModel ∧
    it.custom_voice_prompt =
      (if st.useBatchCustomVoice then st.batchCustomVoicePrompt else "") := by
  have hmem : it ∈ buildItems st 1 (findMatches input.data) := by
    by_cases ht : jsTrim input.data = []
    · simp [parseBatchInput, ht] at h
    · simpa [parseBatchInput, ht] using h
  obtain ⟨j, m, rfl⟩ := buildItems_mem st hmem
  exact ⟨rfl, rfl, rfl, rfl⟩

/-- Witness for C6 at a concrete item of a concrete parse. -/
theorem claim_C6_witness :
    (mkItem sampleSettings 1 (QMatch.dq "a")).voice = sampleSettings.batchVoice :=
  (claim_C6_uniform_settings sampleSettings "\"a\"" (mkItem sampleSettings 1 (QMatch.dq "a"))
    (by decide)).1

/-- C9: an empty double-quoted segment produces an item whose text is
`undefined` (embedded as `none`, since group 1 captures the empty
string, which is falsy, and group 2 is unset), while an empty
single-quoted segment produces an item whose text is the empty string;
both items are still counted and numbered, so the parser does not
enforce non-empty text. -/
theorem claim_C9_empty_quote_asymmetry (st : BatchSettings) :
    (parseBatchInput st "\"\"").map (fun it => (it.text, it.filename)) =
      [(none, "speech_1")] ∧
    (parseBatchInput st (String.mk [squote, squote])).map (fun it => (it.text, it.filename)) =
      [(some "", "speech_1")] :=
  ⟨rfl, rfl⟩

/-- C10: a quoted segment is never split at commas: the full content
between an opening double quote and its closing quote, commas and
single quotes included, becomes a single match; characters between
segments that are not quotes are skipped without effect, so commas
between segments are optional; concretely, the double-quoted input
a-comma-space-b parses to the single text a-comma-space-b, and two
segments parse the same with or without a separating comma. -/
theorem claim_C10_no_split_inside_quotes (st : BatchSettings) (content rest : List Char)
    (hc : ∀ c ∈ content, c ≠ dquote) :
    findMatches (dquote :: content ++ dquote :: rest) =
      QMatch.dq (String.mk content) :: findMatches rest ∧
    (∀ (c : Char) (cs : List Char), c ≠ dquote → c ≠ squote →
      findMatches (c :: cs) = findMatches cs) ∧
    (parseBatchInput st "\"a, b\"").map (fun it => it.text) = [some "a, b"] ∧
    (parseBatchInput st "\"a\" \"b\"").map (fun it => it.text) =
      (parseBatchInput st "\"a\", \"b\"").map (fun it => it.text) := by
  refine ⟨?_, fun c cs h1 h2 => findMatches_cons_skip h1 h2, rfl, rfl⟩
  exact findMatches_cons_dq (takeUntil_append content rest hc)

/-- Witness for C10: a segment whose content holds a comma and a single
quote stays one match. -/
theorem claim_C10_witness :
    findMatches (dquote :: [Char.ofNat 97, Char.ofNat 44, squote] ++ dquote :: []) =
      QMatch.dq (String.mk [Char.ofNat 97, Char.ofNat 44, squote]) :: findMatches [] :=
  (claim_C10_no_split_inside_quotes sampleSettings [Char.ofNat 97, Char.ofNat 44, squote] []
    (by decide)).1

/-- C3: the gateway (modelled from the spec, see `synthesizeSingle`)
rejects any request with speed outside [0.25, 4.0] before any outbound
provider call, and accepts the boundary speeds 0.25 and 4.0 for
otherwise valid requests. -/
theorem claim_C3_speed_bounds (sv sm : List String) (p : SinglePayload) :
    ((p.speed < 1/4 ∨ 4 < p.speed) →
      synthesizeSingle sv sm p = SynthOutcome.validationError) ∧
    (jsTrim p.text.data ≠ [] → p.model ∈ sm →
      (∀ v, p.voice = some v → v ∈ sv) →
      1/4 ≤ p.speed → p.speed ≤ 4 →
      synthesizeSingle sv sm p = SynthOutcome.providerCall p) := by
  constructor
  · intro hs
    by_cases ht : jsTrim p.text.data = []
    · simp only [synthesizeSingle, if_pos ht]
    · simp only [synthesizeSingle, if_neg ht, if_pos hs]
  · intro ht hm hv h₁ h₂
    have hs : ¬(p.speed < 1/4 ∨ 4 < p.speed) := by
      push_neg
      exact ⟨h₁, h₂⟩
    have hvoice : (match p.voice with
        | some v => decide (v ∉ sv)
        | none => false) = false := by
      cases hpv : p.voice with
      | none => rfl
      | some v => simp [hv v hpv]
    simp only [synthesizeSingle, if_neg ht, if_neg hs, hvoice]
    rw [if_neg (not_not_intro hm)]
    simp

/-- Witness for C3: speeds 0.24 and 4.01 are rejected, speeds 0.25 and
4.0 are accepted. -/
theorem claim_C3_witness :
    synthesizeSingle ["alloy"] ["tts-1"] paySlow = SynthOutcome.validationError ∧
    synthesizeSingle ["alloy"] ["tts-1"] payFast = SynthOutcome.validationError ∧
    synthesizeSingle ["alloy"] ["tts-1"] payMin = SynthOutcome.providerCall payMin ∧
    synthesizeSingle ["alloy"] ["tts-1"] payMax = SynthOutcome.providerCall payMax :=
  ⟨(claim_C3_speed_bounds ["alloy"] ["tts-1"] paySlow).1 (Or.inl (by norm_num [paySlow])),
   (claim_C3_speed_bounds ["alloy"] ["tts-1"] payFast).1 (Or.inr (by norm_num [payFast])),
   (claim_C3_speed_bounds ["alloy"] ["tts-1"] payMin).2 (by decide) (by decide)
     (by simp [payMin]) (by norm_num [payMin]) (by norm_num [payMin]),
   (claim_C3_speed_bounds ["alloy"] ["tts-1"] payMax).2 (by decide) (by decide)
     (by simp [payMax]) (by norm_num [payMax]) (by norm_num [payMax])⟩

/-- C4: the payload built by `handleSingleGenerate` carries exactly one
of the fields voice and custom_voice_prompt: the custom prompt, taken
verbatim, exactly when the use-custom-voice flag is set and the prompt
is non-empty after trimming; the named voice otherwise. -/
theorem claim_C4_voice_prompt_exclusive (s : SingleState) :
    ((buildSinglePayload s).voice = some s.voice ∧
      (buildSinglePayload s).custom_voice_prompt = none ∧
      ¬(s.useCustomVoice = true ∧ jsTrim s.customVoicePrompt.data ≠ [])) ∨
    ((buildSinglePayload s).voice = none ∧
      (buildSinglePayload s).custom_voice_prompt = some s.customVoicePrompt ∧
      s.useCustomVoice = true ∧ jsTrim s.customVoicePrompt.data ≠ []) := by
  by_cases h : s.useCustomVoice = true ∧ jsTrim s.customVoicePrompt.data ≠ []
  · right
    refine ⟨?_, ?_, h⟩ <;> simp [buildSinglePayload, if_pos h]
  · left
    refine ⟨?_, ?_, h⟩ <;> simp [buildSinglePayload, if_neg h]

/-- C5: for empty or whitespace-only text, `handleSingleGenerate`
surfaces the validation alert and performs nothing else: in particular
no request is posted to the gateway. -/
theorem claim_C5_blank_text_no_request (s : SingleState) (o : ReqOutcome) (u : String)
    (h : jsTrim s.text.data = []) :
    handleSingleGenerateTrace s o u = [SingleEffect.alertValidation] ∧
    ∀ p, SingleEffect.postSingle p ∉ handleSingleGenerateTrace s o u := by
  constructor
  · simp [handleSingleGenerateTrace, h]
  · intro p
    simp [handleSingleGenerateTrace, h]

/-- Witness for C5 at a whitespace-only text. -/
theorem claim_C5_witness :
    handleSingleGenerateTrace sampleStateBlank ReqOutcome.success "u" =
      [SingleEffect.alertValidation] :=
  (claim_C5_blank_text_no_request sampleStateBlank ReqOutcome.success "u" (by decide)).1

/-- C7: whenever validation passes, each handler sets its loading flag
first and resets it last, for success and failure alike (the reset
comes from the finally block). -/
theorem claim_C7_loading_flags_reset (s : SingleState) (o₁ : ReqOutcome) (u : String)
    (st : BatchSettings) (input : String) (o₂ : ReqOutcome)
    (h₁ : jsTrim s.text.data ≠ []) (h₂ : parseBatchInput st input ≠ []) :
    (handleSingleGenerateTrace s o₁ u).head? = some (SingleEffect.setGenerating true) ∧
    (handleSingleGenerateTrace s o₁ u).getLast? = some (SingleEffect.setGenerating false) ∧
    (handleBatchGenerateTrace st input o₂).head? =
      some (BatchEffect.setGeneratingBatch true) ∧
    (handleBatchGenerateTrace st input o₂).getLast? =
      some (BatchEffect.setGeneratingBatch false) := by
  have h₂l : ¬((parseBatchInput st input).length = 0) := by
    simpa [List.length_eq_zero] using h₂
  refine ⟨?_, ?_, ?_, ?_⟩
  · simp only [handleSingleGenerateTrace, if_neg h₁, List.head?_cons]
  · simp only [handleSingleGenerateTrace, if_neg h₁]
    exact getLast_cons_cons_concat _ _ _ _
  · simp only [handleBatchGenerateTrace, if_neg h₂l, List.head?_cons]
  · simp only [handleBatchGenerateTrace, if_neg h₂l]
    exact getLast_cons_cons_concat _ _ _ _

/-- Witness for C7 at concrete states, one outcome of each kind. -/
theorem claim_C7_witness :
    (handleSingleGenerateTrace sampleStateReady ReqOutcome.success "u").getLast? =
      some (SingleEffect.setGenerating false) ∧
    (handleBatchGenerateTrace sampleSettings "\"a\"" ReqOutcome.failure).getLast? =
      some (BatchEffect.setGeneratingBatch false) :=
  ⟨(claim_C7_loading_flags_reset sampleStateReady ReqOutcome.success "u"
      sampleSettings "\"a\"" ReqOutcome.failure (by decide) (by decide)).2.1,
   (claim_C7_loading_flags_reset sampleStateReady ReqOutcome.success "u"
      sampleSettings "\"a\"" ReqOutcome.failure (by decide) (by decide)).2.2.2⟩

/-- C8: on a successful single generation from a state holding a
previous audio URL (the audio element is then mounted), the old object
URL is revoked strictly before the new URL is stored, and playback of
the new audio is triggered afterwards. -/
theorem claim_C8_revoke_before_replace (s : SingleState) (u newUrl : String)
    (h₁ : s.singleAudioUrl = some u) (h₂ : s.hasAudioElement = true)
    (h₃ : jsTrim s.text.data ≠ []) :
    ∃ pre post,
      handleSingleGenerateTrace s ReqOutcome.success newUrl =
        pre ++ SingleEffect.revokeObjectUrl u ::
          SingleEffect.setAudioUrl newUrl :: post ∧
      SingleEffect.playAudio ∈ post := by
  refine ⟨[SingleEffect.setGenerating true, SingleEffect.postSingle (buildSinglePayload s)],
    [SingleEffect.loadAudio, SingleEffect.playAudio, SingleEffect.setGenerating false],
    ?_, by simp⟩
  simp [handleSingleGenerateTrace, h₁, h₂, h₃]

/-- Witness for C8 at a concrete state with a previous audio URL. -/
theorem claim_C8_witness :
    ∃ pre post,
      handleSingleGenerateTrace sampleStateWithAudio ReqOutcome.success "blob:new" =
        pre ++ SingleEffect.revokeObjectUrl "blob:old" ::
          SingleEffect.setAudioUrl "blob:new" :: post ∧
      SingleEffect.playAudio ∈ post :=
  claim_C8_revoke_before_replace sampleStateWithAudio "blob:old" "blob:new" rfl rfl (by decide)

end TTS
